import Mathlib

/-!
Shallow embedding of `game_renamer.py` and `rename_games.py`
(shubazalam/Game-Folder-Renamer): the name-cleaning pipeline, the search
variants, the catalog search loop, the interactive chooser, and the folder
processor, together with theorems settling the specification claims.

Strings are modelled as `List Char` internally (ASCII semantics for the
character classes of the Python regexes; the folder names and queries in
this repository are ASCII).
-/

namespace GameRenamer

/-! ## Character classes and basic Python string operations -/

/-- ASCII whitespace as recognized by Python `str.split()` and regex `\s`. -/
def isPySpace (c : Char) : Bool :=
  c = ' ' || c = '\t' || c = '\n' || c = '\r' || c = '\x0b' || c = '\x0c'

/-- ASCII word characters, Python regex `\w`. -/
def isWordChar (c : Char) : Bool :=
  c.isAlpha || c.isDigit || c = '_'

/-- `name.replace('.', ' ').replace('_', ' ')` as a character map
(`game_renamer.py` line 172). -/
def dotToSpace (c : Char) : Char :=
  if c = '.' ∨ c = '_' then ' ' else c

/-- Helper for `pyWords`: scans the input, accumulating the current word in
reverse. -/
def wordsAux : List Char → List Char → List (List Char)
  | [], acc =>
    match acc with
    | [] => []
    | a :: acc2 => [(a :: acc2).reverse]
  | c :: rest, acc =>
    if isPySpace c = true then
      match acc with
      | [] => wordsAux rest []
      | a :: acc2 => (a :: acc2).reverse :: wordsAux rest []
    else wordsAux rest (c :: acc)

/-- Python `str.split()`: split on runs of whitespace, dropping empty pieces. -/
def pyWords (l : List Char) : List (List Char) := wordsAux l []

/-- Python `' '.join(ws)` over a list of words. -/
def unwords : List (List Char) → List Char
  | [] => []
  | [w] => w
  | w :: ws => w ++ ' ' :: unwords ws

/-- `' '.join(name.split())` (`game_renamer.py` line 175): collapse runs of
whitespace to single spaces and trim both ends. -/
def collapseWs (l : List Char) : List Char := unwords (pyWords l)

/-- Python `str.lower()` (ASCII). -/
def pyLower (s : String) : String := ⟨s.data.map Char.toLower⟩

/-- Python `int(str)`: optional surrounding whitespace, optional sign, one or
more decimal digits; `none` where Python raises `ValueError`. (Underscore
digit grouping is not modelled.) -/
def pyIntChars (l : List Char) : Option Int :=
  let t := ((l.dropWhile isPySpace).reverse.dropWhile isPySpace).reverse
  let signDigits : Int × List Char :=
    match t with
    | '+' :: ds => (1, ds)
    | '-' :: ds => (-1, ds)
    | ds => (1, ds)
  if signDigits.2 ≠ [] ∧ signDigits.2.all Char.isDigit then
    some (signDigits.1 *
      Int.ofNat (signDigits.2.foldl (fun a c => a * 10 + (c.toNat - 48)) 0))
  else none

/-! ## The four removal passes of `IGDBClient._clean_folder_name`
(`game_renamer.py` lines 157-177) -/

/-- `re.sub(r'-\w+$', '', name)`: strip a trailing `-<token>` release-group
tag. The regex can match only at the hyphen immediately before the maximal
trailing run of word characters. -/
def stripReleaseGroup (l : List Char) : List Char :=
  match l.reverse.takeWhile isWordChar, l.reverse.dropWhile isWordChar with
  | _ :: _, '-' :: rest => rest.reverse
  | _, _ => l

/-- Scanner states for the global substitution of `v\d+(\.\d+)*`:
`norm` outside any match, `sawV` after a pending `v`, `dig` inside a digit
run of a match, `dot` after a pending `.` inside a match. -/
inductive VScan | norm | sawV | dig | dot

/-- One-pass global `re.sub(r'v\d+(\.\d+)*', '', name)`
(version markers such as `v1.0.12`). Each step consumes one character. -/
def stripVersionsGo : VScan → List Char → List Char
  | .norm, [] => []
  | .sawV, [] => ['v']
  | .dig, [] => []
  | .dot, [] => ['.']
  | .norm, c :: rest =>
    if c = 'v' then stripVersionsGo .sawV rest
    else c :: stripVersionsGo .norm rest
  | .sawV, c :: rest =>
    if c.isDigit then stripVersionsGo .dig rest
    else if c = 'v' then 'v' :: stripVersionsGo .sawV rest
    else 'v' :: c :: stripVersionsGo .norm rest
  | .dig, c :: rest =>
    if c.isDigit then stripVersionsGo .dig rest
    else if c = '.' then stripVersionsGo .dot rest
    else if c = 'v' then stripVersionsGo .sawV rest
    else c :: stripVersionsGo .norm rest
  | .dot, c :: rest =>
    if c.isDigit then stripVersionsGo .dig rest
    else if c = 'v' then '.' :: stripVersionsGo .sawV rest
    else '.' :: c :: stripVersionsGo .norm rest

/-- `re.sub(r'v\d+(\.\d+)*', '', name)`. -/
def stripVersions (l : List Char) : List Char := stripVersionsGo .norm l

/-- One-pass global `re.sub(r'\([^)]*\)', '', name)`: `some buf` buffers the
characters (reversed) since an opening parenthesis still looking for a `)`;
a buffer that never finds one is emitted unchanged at end of input. -/
def stripParensGo : Option (List Char) → List Char → List Char
  | none, [] => []
  | some buf, [] => buf.reverse
  | none, c :: rest =>
    if c = '(' then stripParensGo (some ['(']) rest
    else c :: stripParensGo none rest
  | some buf, c :: rest =>
    if c = ')' then stripParensGo none rest
    else stripParensGo (some (c :: buf)) rest

/-- `re.sub(r'\([^)]*\)', '', name)`. -/
def stripParens (l : List Char) : List Char := stripParensGo none l

/-- `re.sub(r'Enhanced Edition$', '', name)`: drop the literal suffix once. -/
def stripEnhancedSuffix (l : List Char) : List Char :=
  if ("Enhanced Edition".data).isSuffixOf l then
    l.take (l.length - ("Enhanced Edition".data).length)
  else l

/-- `IGDBClient._clean_folder_name` (`game_renamer.py` lines 157-177): the
four removal passes in order, then dots/underscores to spaces, then
whitespace collapse. -/
def cleanChars (l : List Char) : List Char :=
  collapseWs (List.map dotToSpace
    (stripEnhancedSuffix (stripParens (stripVersions (stripReleaseGroup l)))))

/-- `IGDBClient._clean_folder_name` on Lean strings. -/
def cleanFolderName (s : String) : String := ⟨cleanChars s.data⟩

/-! ## Search variants (`IGDBClient.search_game` lines 42-73) -/

/-- `re.sub(r'\s*-?\s*<lit>$', '', base)` for one edition literal: the
leftmost (longest) match strips the literal plus any trailing whitespace,
one optional hyphen, and more whitespace before it. -/
def stripEditionAt (lit : List Char) (l : List Char) : List Char :=
  if lit.reverse.isPrefixOf l.reverse then
    let h := l.reverse.drop lit.length
    let h1 := h.dropWhile isPySpace
    let h2 := match h1 with
      | '-' :: t => t.dropWhile isPySpace
      | _ => h1
    h2.reverse
  else l

/-- The seven edition literals of `edition_patterns` (lines 51-59), in
source order. -/
def editionLits : List (List Char) :=
  ["Enhanced Edition".data, "Definitive Edition".data, "Anniversary".data,
   "Complete Edition".data, "Game of the Year Edition".data,
   "GOTY Edition".data, "Deluxe Edition".data]

/-- The edition-stripping loop (lines 62-67): threads `base_name` through the
patterns, appending every strictly changed result as a further variant.
Returns the appended variants and the final `base_name`. -/
def editionLoop : List (List Char) → List Char → List (List Char) × List Char
  | [], base => ([], base)
  | lit :: lits, base =>
    let cleaned := stripEditionAt lit base
    if cleaned ≠ base then
      ((cleaned :: (editionLoop lits cleaned).1), (editionLoop lits cleaned).2)
    else editionLoop lits base

/-- `base_name.split(" ", 1)` then `f"{first_word}: {rest}"` (lines 70-73). -/
def colonVariantChars (l : List Char) : List Char :=
  match l.dropWhile (fun c => c ≠ ' ') with
  | ' ' :: rest => l.takeWhile (fun c => c ≠ ' ') ++ ':' :: ' ' :: rest
  | _ => l

/-- `search_game` lines 42-73: the ordered list of query variants — the
cleaned base query, each successful edition-stripped reduction, and finally
a colon-inserted variant when the most-reduced base contains a space. -/
def searchVariationsChars (l : List Char) : List (List Char) :=
  let sq := cleanChars l
  let vb := editionLoop editionLits sq
  if vb.2.contains ' ' then (sq :: vb.1) ++ [colonVariantChars vb.2]
  else sq :: vb.1

/-- The query variants of `search_game` on Lean strings. -/
def searchVariations (s : String) : List String :=
  (searchVariationsChars s.data).map (fun l => ⟨l⟩)

/-! ## Catalog model and `IGDBClient.search_game` (lines 75-155) -/

/-- A game record as consumed from the IGDB JSON: `name` is always present;
`first_release_date` is the optional release timestamp; `version_parent`
records whether the key `"version_parent"` is present. -/
structure Game where
  name : String
  first_release_date : Option Int
  version_parent : Bool
deriving DecidableEq

/-- One HTTP response of the catalog search endpoint: status code and the
decoded JSON list of games. -/
structure Response where
  status : Nat
  games : List Game

/-- A release year as held in the Python result tuple: an integer year or
the string `"TBA"`. -/
inductive ReleaseYear
  | year (n : Int)
  | tba
deriving DecidableEq

/-- Outcome of `search_game`: a returned `(name, year)` tuple, a `None`
return, an escaping `KeyError`, or blocking on `input()` with the scripted
operator input exhausted. -/
inductive SearchOutcome
  | found (officialName : String) (yr : ReleaseYear)
  | noResult
  | keyError
  | blocked
deriving DecidableEq

/-- The `for query in search_variations` loop with its `else` clause
(lines 81-100): the games of the first variant whose response has status
200 and a non-empty list; `none` when no variant does. -/
def firstHit (resp : String → Response) : List String → Option (List Game)
  | [] => none
  | q :: qs =>
    if (resp q).status = 200 ∧ (resp q).games ≠ [] then some (resp q).games
    else firstHit resp qs

/-- The year annotation of the chooser (lines 122 and 145): guarded access
with Python falsiness, so a missing or zero timestamp renders as TBA. -/
def chooserYear (tsYear : Int → Int) (g : Game) : ReleaseYear :=
  match g.first_release_date with
  | some ts => if ts ≠ 0 then .year (tsYear ts) else .tba
  | none => .tba

/-- The interactive multi-candidate loop (lines 112-153) over a scripted
input stream. Inputs are lowercased; `'s'` returns `None`; `'m'` advances a
page only when `min((page+1)*5, len(games)) < len(games)`; a parsed integer
`n` with `0 <= n-1 < len(games)` selects `games[n-1]` (bounds are against
the full list, not the displayed page); anything else re-prompts. An
exhausted stream models blocking at `input()`. -/
def chooseLoop (tsYear : Int → Int) (games : List Game) :
    Nat → List String → SearchOutcome
  | _, [] => .blocked
  | page, s :: rest =>
    if pyLower s = "s" then .noResult
    else if pyLower s = "m" then
      if min ((page + 1) * 5) games.length < games.length then
        chooseLoop tsYear games (page + 1) rest
      else chooseLoop tsYear games page rest
    else
      match pyIntChars (pyLower s).data with
      | some n =>
        if h : 0 ≤ n - 1 ∧ (n - 1).toNat < games.length then
          .found (games.get ⟨(n - 1).toNat, h.2⟩).name
            (chooserYear tsYear (games.get ⟨(n - 1).toNat, h.2⟩))
        else chooseLoop tsYear games page rest
      | none => chooseLoop tsYear games page rest

/-- `IGDBClient.search_game` (lines 37-155) after authentication: try the
variants; on no hit return `None`; on a single candidate return its name and
`datetime.fromtimestamp(game["first_release_date"]).year` — an unguarded
access that raises `KeyError` when the field is missing; on several
candidates run the interactive chooser. `tsYear` abstracts the
timestamp-to-year conversion of `datetime.fromtimestamp(...).year`. -/
def searchGame (tsYear : Int → Int) (resp : String → Response)
    (inputs : List String) (game_name : String) : SearchOutcome :=
  match firstHit resp (searchVariations game_name) with
  | none => .noResult
  | some games =>
    match games with
    | [g] =>
      match g.first_release_date with
      | some ts => .found g.name (.year (tsYear ts))
      | none => .keyError
    | _ => chooseLoop tsYear games 0 inputs

/-! ## Folder processor (`GameFolderRenamer`, lines 179-233) -/

/-- `re.match(r'.+ \(\d{4}\)$', name)` as a Boolean: the name (with one
optional trailing newline absorbed by `$`) ends in a space and a
parenthesized run of exactly four digits, preceded by a non-empty,
newline-free prefix matched by `.+`. -/
def canonChars (l : List Char) : Bool :=
  match (match l.reverse with | '\n' :: r => r | r => r) with
  | ')' :: d1 :: d2 :: d3 :: d4 :: '(' :: ' ' :: rest =>
    d1.isDigit && d2.isDigit && d3.isDigit && d4.isDigit &&
      !rest.isEmpty && !rest.contains '\n'
  | _ => false

/-- The canonical-name guard of `_process_single_folder` (line 208). -/
def matchesCanonical (s : String) : Bool := canonChars s.data

/-- The four run counters of `GameFolderRenamer.stats`. -/
structure Stats where
  total : Nat
  renamed : Nat
  skipped : Nat
  errors : Nat
deriving DecidableEq

/-- Environment for resolving one folder: the catalog responses by query,
the scripted operator input, and whether `os.rename` would succeed. -/
structure FolderEnv where
  resp : String → Response
  inputs : List String
  renameOk : Bool

/-- Observable effects of processing one folder: whether `search_game` was
invoked at all, and the performed rename (old name, new name), if any. -/
structure FolderEffects where
  searched : Bool
  rename : Option (String × String)
deriving DecidableEq

/-- `f"{game_name} ({release_year})" if release_year != "TBA" else
game_name` (line 219). -/
def newFolderName (g : String) (yr : ReleaseYear) : String :=
  match yr with
  | .year n => g ++ " (" ++ toString n ++ ")"
  | .tba => g

/-- `GameFolderRenamer._process_single_folder` (lines 205-233): skip
canonical names without searching; otherwise search and either rename
(success or `OSError`) or count an error. `none` models an unhandled
exception (`KeyError`) or blocking on exhausted operator input. -/
def processSingleFolder (tsYear : Int → Int) (env : FolderEnv) (name : String)
    (st : Stats) : Option (Stats × FolderEffects) :=
  if matchesCanonical name then
    some ({ st with skipped := st.skipped + 1 }, ⟨false, none⟩)
  else
    match searchGame tsYear env.resp env.inputs name with
    | .found g yr =>
      if env.renameOk then
        some ({ st with renamed := st.renamed + 1 },
          ⟨true, some (name, newFolderName g yr)⟩)
      else
        some ({ st with errors := st.errors + 1 }, ⟨true, none⟩)
    | .noResult => some ({ st with errors := st.errors + 1 }, ⟨true, none⟩)
    | .keyError => none
    | .blocked => none

/-- One directory entry under the base path, with its resolution
environment. -/
structure DirEntry where
  name : String
  isDir : Bool
  env : FolderEnv

/-- The loop of `process_folders` (lines 193-196) from a given stats state:
non-directories are ignored entirely; each directory bumps `total` and is
processed. Also collects the per-folder effects. -/
def processFoldersFrom (tsYear : Int → Int) :
    List DirEntry → Stats → Option (Stats × List FolderEffects)
  | [], st => some (st, [])
  | e :: es, st =>
    if e.isDir then
      match processSingleFolder tsYear e.env e.name
          { st with total := st.total + 1 } with
      | none => none
      | some (st1, eff) =>
        match processFoldersFrom tsYear es st1 with
        | none => none
        | some (st2, effs) => some (st2, eff :: effs)
    else processFoldersFrom tsYear es st

/-- `GameFolderRenamer.process_folders` (lines 190-203): counters are reset
to zero, then the full pass runs. -/
def processFolders (tsYear : Int → Int) (entries : List DirEntry) :
    Option (Stats × List FolderEffects) :=
  processFoldersFrom tsYear entries ⟨0, 0, 0, 0⟩

/-! ## `rename_games.main` (rename_games.py lines 4-20) -/

/-- Parameter count of `GameFolderRenamer.__init__` besides `self`
(`game_renamer.py` line 180): `igdb_client`, `base_path`. -/
def gameFolderRenamerInitParams : Nat := 2

/-- Argument count at the construction site in `main`
(`rename_games.py` line 17): `igdb_client`, `games_folder`, `dry_run`. -/
def mainRenamerArgs : Nat := 3

/-- How a run of `main` ends before any folder is processed. -/
inductive MainOutcome
  | missingCreds
  | typeErrorAtConstruction
  | processed
deriving DecidableEq

/-- `rename_games.main`: read credentials and `DRY_RUN` from the
environment (`None` for unset), print-and-return when a credential is
missing or empty (Python falsiness of `all`), then construct
`GameFolderRenamer`; calling a Python constructor with the wrong number of
arguments raises `TypeError` at that point. -/
def mainRun (clientId clientSecret dryRunVar : Option String) : MainOutcome :=
  let _dry := pyLower (dryRunVar.getD "false")
  if clientId.getD "" = "" ∨ clientSecret.getD "" = "" then .missingCreds
  else if mainRenamerArgs ≠ gameFolderRenamerInitParams then
    .typeErrorAtConstruction
  else .processed

/-- A constant response environment, for concrete instantiations. -/
def constResp (status : Nat) (gs : List Game) : String → Response :=
  fun _ => ⟨status, gs⟩

/-! ## Supporting lemmas -/

theorem dotToSpace_idem (c : Char) : dotToSpace (dotToSpace c) = dotToSpace c := by
  simp only [dotToSpace]
  by_cases h : c = '.' ∨ c = '_'
  · rw [if_pos h]; decide
  · rw [if_neg h, if_neg h]

theorem map_eq_self_of {f : Char → Char} :
    ∀ l : List Char, (∀ c ∈ l, f c = c) → l.map f = l := by
  intro l h
  induction l with
  | nil => rfl
  | cons c rest ih =>
    simp only [List.map_cons]
    rw [h c (List.mem_cons_self c rest),
      ih (fun d hd => h d (List.mem_cons_of_mem c hd))]

theorem mem_unwords {c : Char} :
    ∀ {ws : List (List Char)}, c ∈ unwords ws → c = ' ' ∨ ∃ w ∈ ws, c ∈ w := by
  intro ws
  induction ws with
  | nil => intro h; cases h
  | cons w ws ih =>
    intro h
    cases ws with
    | nil =>
      right
      exact ⟨w, List.mem_cons_self w [], by simpa [unwords] using h⟩
    | cons v vs =>
      rw [show unwords (w :: v :: vs) = w ++ ' ' :: unwords (v :: vs) from rfl] at h
      rcases List.mem_append.mp h with h1 | h1
      · right; exact ⟨w, List.mem_cons_self _ _, h1⟩
      · rcases List.mem_cons.mp h1 with h2 | h2
        · left; exact h2
        · rcases ih h2 with h3 | ⟨u, hu, hcu⟩
          · left; exact h3
          · right; exact ⟨u, List.mem_cons_of_mem _ hu, hcu⟩

theorem wordsAux_chars : ∀ (l acc w : List Char),
    w ∈ wordsAux l acc → ∀ c ∈ w, c ∈ l ∨ c ∈ acc := by
  intro l
  induction l with
  | nil =>
    intro acc w hw c hc
    cases acc with
    | nil => cases hw
    | cons a acc2 =>
      right
      have h1 := List.mem_singleton.mp hw
      subst h1
      exact (List.mem_reverse).mp hc
  | cons d rest ih =>
    intro acc w hw c hc
    cases hsp : isPySpace d with
    | true =>
      unfold wordsAux at hw
      rw [hsp, if_pos rfl] at hw
      cases acc with
      | nil =>
        rcases ih [] w hw c hc with h1 | h1
        · exact Or.inl (List.mem_cons_of_mem d h1)
        · cases h1
      | cons a acc2 =>
        rcases List.mem_cons.mp hw with h1 | h1
        · subst h1
          exact Or.inr ((List.mem_reverse).mp hc)
        · rcases ih [] w h1 c hc with h2 | h2
          · exact Or.inl (List.mem_cons_of_mem d h2)
          · cases h2
    | false =>
      unfold wordsAux at hw
      rw [hsp, if_neg Bool.false_ne_true] at hw
      rcases ih (d :: acc) w hw c hc with h1 | h1
      · exact Or.inl (List.mem_cons_of_mem d h1)
      · rcases List.mem_cons.mp h1 with h2 | h2
        · subst h2; exact Or.inl (List.mem_cons_self c rest)
        · exact Or.inr h2

theorem wordsAux_good : ∀ (l acc : List Char),
    (∀ c ∈ acc, isPySpace c = false) →
    ∀ w ∈ wordsAux l acc, w ≠ [] ∧ ∀ c ∈ w, isPySpace c = false := by
  intro l
  induction l with
  | nil =>
    intro acc hacc w hw
    cases acc with
    | nil => cases hw
    | cons a acc2 =>
      have h1 := List.mem_singleton.mp hw
      subst h1
      refine ⟨by simp, ?_⟩
      intro c hc
      exact hacc c ((List.mem_reverse).mp hc)
  | cons d rest ih =>
    intro acc hacc w hw
    cases hsp : isPySpace d with
    | true =>
      unfold wordsAux at hw
      rw [hsp, if_pos rfl] at hw
      cases acc with
      | nil => exact ih [] (fun c hc => absurd hc (List.not_mem_nil c)) w hw
      | cons a acc2 =>
        rcases List.mem_cons.mp hw with h1 | h1
        · subst h1
          refine ⟨by simp, ?_⟩
          intro c hc
          exact hacc c ((List.mem_reverse).mp hc)
        · exact ih [] (fun c hc => absurd hc (List.not_mem_nil c)) w h1
    | false =>
      unfold wordsAux at hw
      rw [hsp, if_neg Bool.false_ne_true] at hw
      refine ih (d :: acc) ?_ w hw
      intro c hc
      rcases List.mem_cons.mp hc with h2 | h2
      · subst h2; exact hsp
      · exact hacc c h2

theorem wordsAux_append_word : ∀ (w l acc : List Char),
    (∀ c ∈ w, isPySpace c = false) →
    wordsAux (w ++ l) acc = wordsAux l (w.reverse ++ acc) := by
  intro w
  induction w with
  | nil => intro l acc _; simp
  | cons c w ih =>
    intro l acc h
    have hc : isPySpace c = false := h c (List.mem_cons_self c w)
    have step : wordsAux (c :: (w ++ l)) acc = wordsAux (w ++ l) (c :: acc) := by
      simp [wordsAux, hc]
    show wordsAux (c :: (w ++ l)) acc = _
    rw [step, ih l (c :: acc) (fun d hd => h d (List.mem_cons_of_mem c hd)),
      List.reverse_cons, List.append_assoc, List.singleton_append]

theorem pyWords_unwords : ∀ ws : List (List Char),
    (∀ w ∈ ws, w ≠ [] ∧ ∀ c ∈ w, isPySpace c = false) →
    pyWords (unwords ws) = ws := by
  intro ws
  induction ws with
  | nil => intro _; rfl
  | cons w ws ih =>
    intro h
    have hw := h w (List.mem_cons_self w ws)
    cases ws with
    | nil =>
      show pyWords (unwords [w]) = [w]
      rw [show unwords [w] = w from rfl]
      unfold pyWords
      conv_lhs => rw [← List.append_nil w]
      rw [wordsAux_append_word w [] [] hw.2, List.append_nil]
      cases hrev : w.reverse with
      | nil => exact absurd (by simpa using congrArg List.reverse hrev) hw.1
      | cons a t =>
        show [(a :: t).reverse] = [w]
        rw [← hrev, List.reverse_reverse]
    | cons v vs =>
      show pyWords (unwords (w :: v :: vs)) = _
      rw [show unwords (w :: v :: vs) = w ++ ' ' :: unwords (v :: vs) from rfl]
      unfold pyWords
      rw [wordsAux_append_word w _ [] hw.2, List.append_nil]
      cases hrev : w.reverse with
      | nil => exact absurd (by simpa using congrArg List.reverse hrev) hw.1
      | cons a t =>
        show wordsAux (' ' :: unwords (v :: vs)) (a :: t) = w :: v :: vs
        unfold wordsAux
        rw [show isPySpace ' ' = true from rfl, if_pos rfl]
        show (a :: t).reverse :: wordsAux (unwords (v :: vs)) [] = w :: v :: vs
        rw [← hrev, List.reverse_reverse]
        exact congrArg (w :: ·) (ih (fun u hu => h u (List.mem_cons_of_mem w hu)))

theorem collapseWs_collapseWs (l : List Char) :
    collapseWs (collapseWs l) = collapseWs l := by
  unfold collapseWs
  rw [pyWords_unwords (pyWords l)
    (wordsAux_good l [] (fun c hc => absurd hc (List.not_mem_nil c)))]

theorem map_dotToSpace_collapseWs (u : List Char) :
    List.map dotToSpace (collapseWs (List.map dotToSpace u)) =
      collapseWs (List.map dotToSpace u) := by
  apply map_eq_self_of
  intro c hc
  rcases mem_unwords hc with h1 | ⟨w, hw, hcw⟩
  · subst h1; decide
  · rcases wordsAux_chars _ [] w hw c hcw with h1 | h1
    · rcases List.mem_map.mp h1 with ⟨d, -, h2⟩
      rw [← h2]
      exact dotToSpace_idem d
    · cases h1

theorem firstHit_none (resp : String → Response) :
    ∀ qs : List String,
    (∀ q ∈ qs, (resp q).status ≠ 200 ∨ (resp q).games = []) →
    firstHit resp qs = none := by
  intro qs
  induction qs with
  | nil => intro _; rfl
  | cons q qs ih =>
    intro h
    have hnc : ¬ ((resp q).status = 200 ∧ (resp q).games ≠ []) := by
      rcases h q (List.mem_cons_self q qs) with h1 | h1
      · exact fun hc => h1 hc.1
      · exact fun hc => hc.2 h1
    unfold firstHit
    rw [if_neg hnc]
    exact ih (fun r hr => h r (List.mem_cons_of_mem q hr))

theorem searchGame_noHits (tsYear : Int → Int) (resp : String → Response)
    (inputs : List String) (name : String)
    (h : ∀ q ∈ searchVariations name,
      (resp q).status ≠ 200 ∨ (resp q).games = []) :
    searchGame tsYear resp inputs name = .noResult := by
  unfold searchGame
  rw [firstHit_none resp (searchVariations name) h]

theorem processSingleFolder_counts (tsYear : Int → Int) (env : FolderEnv)
    (name : String) (st st1 : Stats) (eff : FolderEffects)
    (h : processSingleFolder tsYear env name st = some (st1, eff)) :
    st1.total = st.total ∧
      st1.renamed + st1.skipped + st1.errors =
        st.renamed + st.skipped + st.errors + 1 := by
  unfold processSingleFolder at h
  split at h
  · simp only [Option.some.injEq, Prod.mk.injEq] at h
    obtain ⟨hst, -⟩ := h
    subst hst
    refine ⟨rfl, ?_⟩
    show st.renamed + (st.skipped + 1) + st.errors =
      st.renamed + st.skipped + st.errors + 1
    omega
  · split at h
    · split at h
      · simp only [Option.some.injEq, Prod.mk.injEq] at h
        obtain ⟨hst, -⟩ := h
        subst hst
        refine ⟨rfl, ?_⟩
        show st.renamed + 1 + st.skipped + st.errors =
          st.renamed + st.skipped + st.errors + 1
        omega
      · simp only [Option.some.injEq, Prod.mk.injEq] at h
        obtain ⟨hst, -⟩ := h
        subst hst
        refine ⟨rfl, ?_⟩
        show st.renamed + st.skipped + (st.errors + 1) =
          st.renamed + st.skipped + st.errors + 1
        omega
    · simp only [Option.some.injEq, Prod.mk.injEq] at h
      obtain ⟨hst, -⟩ := h
      subst hst
      refine ⟨rfl, ?_⟩
      show st.renamed + st.skipped + (st.errors + 1) =
        st.renamed + st.skipped + st.errors + 1
      omega
    · exact Option.noConfusion h
    · exact Option.noConfusion h

theorem processFoldersFrom_counts (tsYear : Int → Int) :
    ∀ (es : List DirEntry) (st st2 : Stats) (effs : List FolderEffects),
    processFoldersFrom tsYear es st = some (st2, effs) →
    st2.total + st.renamed + st.skipped + st.errors =
      st.total + st2.renamed + st2.skipped + st2.errors := by
  intro es
  induction es with
  | nil =>
    intro st st2 effs h
    simp only [processFoldersFrom, Option.some.injEq, Prod.mk.injEq] at h
    obtain ⟨hst, -⟩ := h
    subst hst
    rfl
  | cons e es ih =>
    intro st st2 effs h
    unfold processFoldersFrom at h
    split at h
    · split at h
      · exact Option.noConfusion h
      · rename_i st1 eff heq
        split at h
        · exact Option.noConfusion h
        · rename_i st2v effsv heq2
          simp only [Option.some.injEq, Prod.mk.injEq] at h
          obtain ⟨hst, -⟩ := h
          subst hst
          have d := processSingleFolder_counts tsYear e.env e.name
            { st with total := st.total + 1 } st1 eff heq
          have d1 : st1.total = st.total + 1 := d.1
          have d2 : st1.renamed + st1.skipped + st1.errors =
              st.renamed + st.skipped + st.errors + 1 := d.2
          have r := ih st1 st2v effsv heq2
          omega
    · exact ih st st2 effs h

/-! ## Claim theorems -/

/-- C1: after a completed full pass of `process_folders`, the counters
satisfy `total = renamed + skipped + errors`: every directory entry that is
a directory increments `total` and exactly one of `renamed`, `skipped`,
`errors`. -/
theorem counters_invariant (tsYear : Int → Int) (entries : List DirEntry)
    (st : Stats) (effs : List FolderEffects)
    (h : processFolders tsYear entries = some (st, effs)) :
    st.total = st.renamed + st.skipped + st.errors := by
  have r := processFoldersFrom_counts tsYear entries ⟨0, 0, 0, 0⟩ st effs h
  have r2 : st.total + 0 + 0 + 0 = 0 + st.renamed + st.skipped + st.errors := r
  omega

/-- A concrete directory for the C1 witness: one canonical folder (skip),
one plain file (ignored), one resolvable folder (rename), one folder with
no catalog hits (error). -/
def sampleEntries : List DirEntry :=
  [⟨"Doom (1993)", true, ⟨constResp 404 [], [], true⟩⟩,
   ⟨"notes.txt", false, ⟨constResp 404 [], [], true⟩⟩,
   ⟨"Portal", true, ⟨constResp 200 [⟨"Portal 2", some 42, false⟩], [], true⟩⟩,
   ⟨"Mystery", true, ⟨constResp 404 [], [], true⟩⟩]

/-- Effects of the C1 witness run. -/
def sampleEffects : List FolderEffects :=
  [⟨false, none⟩, ⟨true, some ("Portal", "Portal 2 (2011)")⟩, ⟨true, none⟩]

/-- Witness for C1: the sample run completes with counters 3 = 1 + 1 + 1. -/
theorem counters_invariant_witness :
    processFolders (fun _ => 2011) sampleEntries =
      some (⟨3, 1, 1, 1⟩, sampleEffects) ∧
    (⟨3, 1, 1, 1⟩ : Stats).total =
      (⟨3, 1, 1, 1⟩ : Stats).renamed + (⟨3, 1, 1, 1⟩ : Stats).skipped +
        (⟨3, 1, 1, 1⟩ : Stats).errors :=
  ⟨by decide,
    counters_invariant (fun _ => 2011) sampleEntries ⟨3, 1, 1, 1⟩ sampleEffects
      (by decide)⟩

/-- C2: a folder name matching `.+ \(\d{4}\)$` is skipped: no catalog
search at all, no rename, and `skipped` is incremented by exactly one while
the other counters are unchanged. -/
theorem canonical_name_skipped (tsYear : Int → Int) (env : FolderEnv)
    (name : String) (st : Stats) (h : matchesCanonical name = true) :
    processSingleFolder tsYear env name st =
      some ({ st with skipped := st.skipped + 1 }, ⟨false, none⟩) := by
  unfold processSingleFolder
  rw [if_pos h]

/-- Witness for C2 at `Doom (1993)`. -/
theorem canonical_name_skipped_witness :
    matchesCanonical "Doom (1993)" = true ∧
    processSingleFolder (fun _ => 0) ⟨constResp 500 [], [], true⟩
        "Doom (1993)" ⟨0, 0, 0, 0⟩ = some (⟨0, 0, 1, 0⟩, ⟨false, none⟩) :=
  ⟨by decide,
    canonical_name_skipped (fun _ => 0) ⟨constResp 500 [], [], true⟩
      "Doom (1993)" ⟨0, 0, 0, 0⟩ (by decide)⟩

/-- C3 (code bug): with credentials present and `DRY_RUN=true`, `main` does
not run a preview pipeline: the construction site passes three arguments
(`igdb_client`, `games_folder`, `dry_run`) to the two-parameter
`GameFolderRenamer.__init__`, so the run raises `TypeError` before any
folder is processed — and the renamer has no dry-run branch anyway:
`os.rename` is unconditional (game_renamer.py line 225). -/
theorem dry_run_crashes_not_previews :
    mainRun (some "id") (some "secret") (some "true") =
      .typeErrorAtConstruction := by decide

/-- C4 (code bug): the single-candidate auto-select path reads the release
timestamp with an unguarded `game["first_release_date"]` (line 109), so a
lone candidate without the field raises `KeyError` instead of producing the
spec's "unknown"/TBA year; the chooser paths (lines 122, 145) do guard it. -/
theorem single_candidate_missing_date_crashes :
    searchGame (fun _ => 0) (constResp 200 [⟨"Ghost Game", none, false⟩]) []
      "Ghost" = .keyError := by decide

/-- C5 counterexample: the raw name `Halo Infinite Enhanced Edition` is not
among its own query variants — `_clean_folder_name` already removes the
`Enhanced Edition` suffix before the base variant is recorded — so the
claimed first variant is never tried. -/
theorem halo_raw_name_not_a_variant :
    ¬ ("Halo Infinite Enhanced Edition" ∈
        searchVariations "Halo Infinite Enhanced Edition") := by decide

/-- C5 amended: for `Halo Infinite Enhanced Edition` the variant list is
exactly `Halo Infinite` then `Halo: Infinite`, tried in that order. -/
theorem halo_variants_exact :
    searchVariations "Halo Infinite Enhanced Edition" =
      ["Halo Infinite", "Halo: Infinite"] := by decide

/-- C6 counterexample: cleaning is not idempotent — deleting the
parenthesized segment of `Game-X (2020)` exposes a `-X` release-group
suffix, which only a second cleaning removes (`Game-X` to `Game`). -/
theorem clean_not_idempotent :
    cleanFolderName (cleanFolderName "Game-X (2020)") ≠
      cleanFolderName "Game-X (2020)" := by decide

/-- C6 amended: cleaning is idempotent whenever the four removal passes
find nothing further in the already-cleaned name; the dot/underscore
replacement and the whitespace collapse are unconditionally idempotent on
cleaned output. In general an earlier removal can expose a fresh match, and
a second clean strips more. -/
theorem clean_conditional_idempotent (s : String)
    (h1 : stripReleaseGroup (cleanFolderName s).data = (cleanFolderName s).data)
    (h2 : stripVersions (cleanFolderName s).data = (cleanFolderName s).data)
    (h3 : stripParens (cleanFolderName s).data = (cleanFolderName s).data)
    (h4 : stripEnhancedSuffix (cleanFolderName s).data =
      (cleanFolderName s).data) :
    cleanFolderName (cleanFolderName s) = cleanFolderName s := by
  show String.mk (cleanChars (cleanFolderName s).data) = cleanFolderName s
  have key : cleanChars (cleanFolderName s).data = (cleanFolderName s).data := by
    unfold cleanChars
    rw [h1, h2, h3, h4]
    show collapseWs (List.map dotToSpace (cleanChars s.data)) = cleanChars s.data
    unfold cleanChars
    rw [map_dotToSpace_collapseWs, collapseWs_collapseWs]
  rw [key]

/-- Witness for C6 at `Portal 2`, a fixed point of all four passes. -/
theorem clean_conditional_idempotent_witness :
    (stripReleaseGroup (cleanFolderName "Portal 2").data =
        (cleanFolderName "Portal 2").data ∧
      stripVersions (cleanFolderName "Portal 2").data =
        (cleanFolderName "Portal 2").data ∧
      stripParens (cleanFolderName "Portal 2").data =
        (cleanFolderName "Portal 2").data ∧
      stripEnhancedSuffix (cleanFolderName "Portal 2").data =
        (cleanFolderName "Portal 2").data) ∧
    cleanFolderName (cleanFolderName "Portal 2") = cleanFolderName "Portal 2" :=
  ⟨⟨by decide, by decide, by decide, by decide⟩,
    clean_conditional_idempotent "Portal 2" (by decide) (by decide) (by decide)
      (by decide)⟩

/-- C7 counterexample: a non-success catalog response does not fail the
search with any error: with a 500 response (even one carrying hits) the
search returns `None` — the very same outcome as a success response with no
hits. The code has no `SearchError`; it falls through the variant loop
(lines 95-100). -/
theorem non_success_response_is_not_an_error :
    searchGame (fun _ => 0) (constResp 500 [⟨"Hit", some 5, false⟩]) []
      "Doom" = .noResult := by decide

/-- C7 amended: a non-success response is treated exactly like a success
response with no hits: the loop moves to the next variant, and when no
variant yields a success response with hits the search returns `None`
without raising anything. -/
theorem search_no_hit_or_failure_returns_none (tsYear : Int → Int)
    (resp : String → Response) (inputs : List String) (name : String)
    (h : ∀ q ∈ searchVariations name,
      (resp q).status ≠ 200 ∨ (resp q).games = []) :
    searchGame tsYear resp inputs name = .noResult :=
  searchGame_noHits tsYear resp inputs name h

/-- Witness for C7 amended: 404 responses on every variant yield `None`. -/
theorem search_no_hit_or_failure_returns_none_witness :
    (∀ q ∈ searchVariations "Nothing",
      ((constResp 404 []) q).status ≠ 200 ∨ ((constResp 404 []) q).games = []) ∧
    searchGame (fun _ => 0) (constResp 404 []) [] "Nothing" = .noResult :=
  ⟨fun _ _ => Or.inl (show (404 : Nat) ≠ 200 by decide),
    search_no_hit_or_failure_returns_none (fun _ => 0) (constResp 404 []) []
      "Nothing" (fun _ _ => Or.inl (show (404 : Nat) ≠ 200 by decide))⟩

/-- C8 counterexample: a single candidate is not always returned — when it
lacks a release timestamp the auto-select path raises `KeyError` instead of
resolving to the candidate. -/
theorem single_candidate_not_always_returned :
    searchGame (fun _ => 0) (constResp 200 [⟨"Solo", none, false⟩]) ["1"]
      "Solo" = .keyError := by decide

/-- C8 amended: when the first variant producing candidates yields exactly
one candidate and it carries a release timestamp, the resolver returns it
with its derived year for every operator-input stream — in particular for
the empty stream, i.e. no prompt is ever read. -/
theorem single_candidate_auto_selected (tsYear : Int → Int)
    (resp : String → Response) (inputs : List String) (name : String)
    (g : Game) (ts : Int)
    (hhit : firstHit resp (searchVariations name) = some [g])
    (hts : g.first_release_date = some ts) :
    searchGame tsYear resp inputs name = .found g.name (.year (tsYear ts)) := by
  unfold searchGame
  rw [hhit]
  show (match g.first_release_date with
    | some ts => SearchOutcome.found g.name (.year (tsYear ts))
    | none => SearchOutcome.keyError) = .found g.name (.year (tsYear ts))
  rw [hts]

/-- Witness for C8 amended: a lone `Portal 2` candidate auto-selects with
no operator input at all. -/
theorem single_candidate_auto_selected_witness :
    firstHit (constResp 200 [⟨"Portal 2", some 42, false⟩])
        (searchVariations "Portal") = some [⟨"Portal 2", some 42, false⟩] ∧
    (⟨"Portal 2", some 42, false⟩ : Game).first_release_date = some 42 ∧
    searchGame (fun _ => 2011) (constResp 200 [⟨"Portal 2", some 42, false⟩])
        [] "Portal" = .found "Portal 2" (.year 2011) :=
  ⟨by decide, rfl,
    single_candidate_auto_selected (fun _ => 2011)
      (constResp 200 [⟨"Portal 2", some 42, false⟩]) [] "Portal"
      ⟨"Portal 2", some 42, false⟩ 42 (by decide) rfl⟩

/-- C9: when every variant yields zero candidates (or a failed response),
resolution is "no match": `search_game` returns `None`, `errors` is
incremented by exactly one, and no rename of the folder occurs. -/
theorem no_candidates_counted_error (tsYear : Int → Int) (env : FolderEnv)
    (name : String) (st : Stats)
    (hc : matchesCanonical name = false)
    (h : ∀ q ∈ searchVariations name,
      (env.resp q).status ≠ 200 ∨ (env.resp q).games = []) :
    searchGame tsYear env.resp env.inputs name = .noResult ∧
    processSingleFolder tsYear env name st =
      some ({ st with errors := st.errors + 1 }, ⟨true, none⟩) := by
  have hs := searchGame_noHits tsYear env.resp env.inputs name h
  refine ⟨hs, ?_⟩
  unfold processSingleFolder
  rw [if_neg (by simp [hc]), hs]

/-- Witness for C9: success responses with empty hit lists on every
variant. -/
theorem no_candidates_counted_error_witness :
    matchesCanonical "Mystery Game" = false ∧
    searchGame (fun _ => 0) (constResp 200 []) [] "Mystery Game" = .noResult ∧
    processSingleFolder (fun _ => 0) ⟨constResp 200 [], [], true⟩
        "Mystery Game" ⟨0, 0, 0, 0⟩ = some (⟨0, 0, 0, 1⟩, ⟨true, none⟩) := by
  have r := no_candidates_counted_error (fun _ => 0)
    ⟨constResp 200 [], [], true⟩ "Mystery Game" ⟨0, 0, 0, 0⟩ (by decide)
    (fun _ _ => Or.inr rfl)
  exact ⟨by decide, r.1, r.2⟩

/-- C10: in the chooser, any numeric input from 1 to the full candidate
count is accepted from any page — the bound check is against the whole
fetched list, not the displayed page — and selects that candidate. -/
theorem numeric_choice_any_page (tsYear : Int → Int) (games : List Game)
    (page : Nat) (s : String) (rest : List String) (n : Int)
    (hparse : pyIntChars (pyLower s).data = some n)
    (h1 : 1 ≤ n) (h2 : (n - 1).toNat < games.length) :
    chooseLoop tsYear games page (s :: rest) =
      .found (games.get ⟨(n - 1).toNat, h2⟩).name
        (chooserYear tsYear (games.get ⟨(n - 1).toNat, h2⟩)) := by
  have hs : ¬ pyLower s = "s" := by
    intro hcontra
    rw [hcontra] at hparse
    rw [show pyIntChars "s".data = none from by decide] at hparse
    exact Option.noConfusion hparse
  have hm : ¬ pyLower s = "m" := by
    intro hcontra
    rw [hcontra] at hparse
    rw [show pyIntChars "m".data = none from by decide] at hparse
    exact Option.noConfusion hparse
  unfold chooseLoop
  rw [if_neg hs, if_neg hm, hparse]
  show (if h : 0 ≤ n - 1 ∧ (n - 1).toNat < games.length then
      SearchOutcome.found (games.get ⟨(n - 1).toNat, h.2⟩).name
        (chooserYear tsYear (games.get ⟨(n - 1).toNat, h.2⟩))
    else chooseLoop tsYear games page rest) =
    SearchOutcome.found (games.get ⟨(n - 1).toNat, h2⟩).name
      (chooserYear tsYear (games.get ⟨(n - 1).toNat, h2⟩))
  rw [dif_pos (⟨by omega, h2⟩ : 0 ≤ n - 1 ∧ (n - 1).toNat < games.length)]

/-- Six candidates: entries 1-5 are page one, entry 6 is on page two. -/
def pageTwoGames : List Game :=
  [⟨"A", none, false⟩, ⟨"B", none, false⟩, ⟨"C", none, false⟩,
   ⟨"D", none, false⟩, ⟨"E", none, false⟩, ⟨"F", some 7, false⟩]

/-- Witness for C10: choice `6` is accepted while page one is displayed. -/
theorem numeric_choice_any_page_witness :
    pyIntChars (pyLower "6").data = some 6 ∧ (1 : Int) ≤ 6 ∧
    ((6 : Int) - 1).toNat < pageTwoGames.length ∧
    chooseLoop (fun _ => 1999) pageTwoGames 0 ["6"] =
      .found "F" (.year 1999) := by
  refine ⟨by decide, by decide, by decide, ?_⟩
  exact numeric_choice_any_page (fun _ => 1999) pageTwoGames 0 "6" [] 6
    (by decide) (by decide) (by decide)


end GameRenamer
